import Mathlib

/-!
Verification development for the task-runner repository.

The core under study is the process-tracking manager
(`runScript`, `stopScript`, `listScripts`, `getStatus`) which owns a
shared in-memory table (`runningScripts`, a `Map` from id to script
info) of tracked child processes.  The manager is single-threaded and
every callback runs to completion, so it is embedded here as pure
state-transition functions over an explicit state:

  * the Task Table is an association list from id to `Task`, with
    `mapSet` / `mapGet` / `mapDelete` mirroring the semantics of the
    JavaScript `Map` methods `set` / `get` / `delete`;
  * wall-clock instants and durations are `Nat` milliseconds;
  * the OS spawn primitive is an oracle input `Except String Nat`
    (error message if `spawn` threw, otherwise the child pid);
  * the delayed evictions scheduled with `setTimeout` are recorded as
    pending `TimerEv` events, fired by `fireTimer`;
  * each termination-signal attempt made by `stopScript` is recorded
    as a `KillReq` (the `win` flag selects the Windows taskkill
    process-tree path versus the POSIX SIGTERM path); the source
    catches and ignores any failure of the kill call, so the outcome
    of the attempt does not influence the state update;
  * `stopScript` is split at its only suspension point: on win32 the
    source `await`s the `taskkill` child between the status check and
    the `status = 'stopped'` write, so other event-loop turns (close
    handlers, timers, requests) can be dispatched in between.  The
    synchronous first half is `stopBegin` (which also contains the
    whole `await`-free POSIX path), the resumption is `stopFinish`,
    and the composite `stopScript` takes the schedule of turns run
    during the wait as an explicit `mid : List Op` argument.
-/

namespace TaskRunner

/-- JavaScript `String.prototype.endsWith`, as an executable suffix
test on the character sequences. -/
def strEndsWith (s suffix : String) : Bool :=
  suffix.data.isSuffixOf s.data

/-- The `status` field of a tracked task: `'running'`, `'completed'` or
`'stopped'`. -/
inductive Status where
  | running
  | completed
  | stopped
deriving DecidableEq, Repr

/-- String rendering of a status, as interpolated into messages such as
`Script is in completed state`. -/
def Status.toStr : Status → String
  | .running => "running"
  | .completed => "completed"
  | .stopped => "stopped"

/-- One entry of the Task Table (the `scriptInfo` object built by
`runScript` in tracked mode). -/
structure Task where
  id : String
  scriptPath : String
  args : List String
  pid : Nat
  startTime : Nat
  status : Status
  endTime : Option Nat := none
  duration : Option Nat := none
  exitCode : Option Int := none
  stdout : List String := []
  stderr : List String := []
  workingDir : String
  mode : String := "tracked"
deriving DecidableEq, Repr

/-- The Task Table: association list from id to task, mirroring the
module-level `runningScripts : Map`. -/
abbrev Table := List (String × Task)

/-- `runningScripts.get(k)` : first entry with key `k`, if any. -/
def mapGet (k : String) (t : Table) : Option Task :=
  (t.find? (fun p => decide (p.1 = k))).map (·.2)

/-- `runningScripts.has(k)`. -/
def mapHas (k : String) (t : Table) : Bool :=
  t.any (fun p => decide (p.1 = k))

/-- `runningScripts.set(k, v)` : replace in place if the key is
present, otherwise append (JavaScript `Map` insertion order). -/
def mapSet (k : String) (v : Task) (t : Table) : Table :=
  if mapHas k t then t.map (fun p => if p.1 = k then (k, v) else p)
  else t ++ [(k, v)]

/-- `runningScripts.delete(k)`. -/
def mapDelete (k : String) (t : Table) : Table :=
  t.filter (fun p => decide (p.1 ≠ k))

/-- A pending `setTimeout` eviction: the close handler schedules
deletion of a completed entry after 60000 ms, `stopScript` schedules
unconditional deletion after 5000 ms. -/
inductive TimerEv where
  | evictCompleted (id : String) (fireTime : Nat)
  | evictStopped (id : String) (fireTime : Nat)
deriving DecidableEq, Repr

/-- A termination-signal attempt recorded by `stopScript`:
`win = true` is the Windows `taskkill /pid <pid> /t /f` process-tree
kill, `win = false` is the POSIX `process.kill(pid, SIGTERM)`. -/
structure KillReq where
  pid : Nat
  win : Bool
deriving DecidableEq, Repr

/-- Manager state: the Task Table plus the audit of scheduled timers
and signal attempts. -/
structure MState where
  table : Table := []
  timers : List TimerEv := []
  kills : List KillReq := []
deriving DecidableEq, Repr

/-- The options argument of `runScript` (`{ oneTime = false } = options`). -/
structure RunOptions where
  oneTime : Bool := false
deriving DecidableEq, Repr

/-- The process launch request handed to `spawn(command, commandArgs,
{cwd, stdio, detached, env})`. -/
structure SpawnReq where
  command : String
  commandArgs : List String
  cwdDir : String
  detached : Bool
deriving DecidableEq, Repr

/-- The `details` object of a successful `runScript` resolution. -/
structure RunDetails where
  pid : Nat
  scriptPath : String
  args : List String
  startTime : Nat
deriving DecidableEq, Repr

/-- The object `runScript` resolves with. -/
structure RunResult where
  success : Bool
  id : Option String := none
  mode : Option String := none
  error : Option String := none
  message : String
  details : Option RunDetails := none
deriving DecidableEq, Repr

/-- Everything observable about one `runScript` call: the resolved
result, the manager state afterwards, and the spawn request that was
issued. -/
structure RunOutcome where
  result : RunResult
  state : MState
  spawned : SpawnReq
deriving DecidableEq, Repr

/-- The `scriptInfo` record inserted into the Task Table by a tracked
`runScript` call: fresh id, the invocation parameters, the child pid,
start time, `status := 'running'`, empty output buffers, mode
`'tracked'`. -/
def newTask (id : String) (scriptPath : String) (args : List String)
    (pid : Nat) (startTime : Nat) (workingDir : String) : Task :=
  { id := id, scriptPath := scriptPath, args := args, pid := pid,
    startTime := startTime, status := .running,
    workingDir := workingDir, mode := "tracked" }

/-- `runScript(scriptPath, args, options)`, embedded from the source.

Oracle inputs stand for the effectful primitives: `spawnRes` is what
`spawn` did (`.error msg` if it threw with message `msg`, `.ok pid`
if it returned a child with that pid), `id` is the `randomUUID()`
value, `workingDir` is `cwd()` and `startTime` is `new Date()`.

The body runs inside `new Promise((resolve) => { try ... catch ... })`
and every path calls `resolve`, so the embedding is a total function:
it always produces a `RunOutcome` and never fails.  The catch block
resolves `{success:false, error: error.message || 'Unknown error'}`
(hence the empty-message fallback) and reaches no table mutation. -/
def runScript (scriptPath : String) (args : List String) (options : RunOptions)
    (spawnRes : Except String Nat) (id : String) (workingDir : String)
    (startTime : Nat) (s : MState) : RunOutcome :=
  let oneTime := options.oneTime
  let (command, commandArgs) :=
    if strEndsWith scriptPath ".js" then
      ("node", scriptPath :: args)
    else if strEndsWith scriptPath ".bat" then
      ("cmd", "/c" :: scriptPath :: args)
    else
      (scriptPath, args)
  let req : SpawnReq :=
    { command := command, commandArgs := commandArgs,
      cwdDir := workingDir, detached := oneTime }
  match spawnRes with
  | .error msg =>
      { result := { success := false,
                    error := some (if msg = "" then "Unknown error" else msg),
                    message := "Failed to start script" },
        state := s,
        spawned := req }
  | .ok pid =>
      if oneTime then
        { result := { success := true, id := some id, mode := some "oneTime",
                      message := "Script started and will run independently",
                      details := some { pid := pid, scriptPath := scriptPath,
                                        args := args, startTime := startTime } },
          state := s,
          spawned := req }
      else
        let scriptInfo : Task :=
          newTask id scriptPath args pid startTime workingDir
        { result := { success := true, id := some id, mode := some "tracked",
                      message := "Script started successfully",
                      details := some { pid := pid, scriptPath := scriptPath,
                                        args := args, startTime := startTime } },
          state := { s with table := mapSet id scriptInfo s.table },
          spawned := req }

/-- The tracked-mode `childProcess.on('close', ...)` handler: if the id
is still in the table, set `status = 'completed'`, `exitCode`,
`endTime`, `duration`, and schedule eviction of the completed record
after 60000 ms.  Note the status assignment is unconditional on the
current status. -/
def closeHandler (id : String) (code : Int) (now : Nat) (s : MState) : MState :=
  match mapGet id s.table with
  | none => s
  | some scriptInfo =>
      let scriptInfo' :=
        { scriptInfo with
          status := .completed
          exitCode := some code
          endTime := some now
          duration := some (now - scriptInfo.startTime) }
      { s with
        table := mapSet id scriptInfo' s.table
        timers := s.timers ++ [.evictCompleted id (now + 60000)] }

/-- The `details` object of a successful `stopScript` return. -/
structure StopDetails where
  pid : Nat
  stopTime : Nat
  duration : Nat
deriving DecidableEq, Repr

/-- The object `stopScript` returns. -/
structure StopResult where
  success : Bool
  error : Option String := none
  message : String
  id : Option String := none
  details : Option StopDetails := none
deriving DecidableEq, Repr

/-- Outcome of the synchronous first phase of `stopScript`: either the
call completed in the same event-loop turn (both failure returns, and
the whole POSIX success path, which contains no `await`), or — on
win32 — it is suspended awaiting the `taskkill` child, with the `pid`
and `startTime` of the (aliased) `scriptInfo` object captured for the
resumption. -/
inductive StopPhase1 where
  | done (res : StopResult)
  | awaitKill (pid : Nat) (startTime : Nat)
deriving DecidableEq, Repr

/-- Synchronous first phase of `stopScript(id)`, embedded from the
source.  `win` is `process.platform === 'win32'` and `killOk` is
whether the termination attempt succeeded; the source wraps the
attempt in an inner try/catch that logs and continues, so `killOk`
does not affect the returned value or the state update — only the
attempted signal is recorded in `kills`.

The lookup, the not-found return, the not-running return, and the
entire POSIX branch (whose `process.kill` is synchronous, followed
immediately by the status update, the 5000 ms eviction `setTimeout`
and the success return — no `await` anywhere) all run to completion
in one turn.  The win32 branch instead reaches `await
import('child_process')` and then `await`s the `taskkill` child's
close event: a genuine event-loop suspension between the status
check and the `scriptInfo.status = 'stopped'` write.  That branch
therefore stops here with `.awaitKill`, after recording the
process-tree kill request; the resumption is `stopFinish`.  `now` is
the `new Date()` taken at the status update (POSIX branch only). -/
def stopBegin (id : String) (win killOk : Bool) (now : Nat) (s : MState) :
    StopPhase1 × MState :=
  match mapGet id s.table with
  | none =>
      (.done { success := false, error := some "Script not found",
               message := "No running script with the specified ID" }, s)
  | some scriptInfo =>
      if scriptInfo.status ≠ .running then
        (.done { success := false, error := some "Script not running",
                 message := "Script is in " ++ scriptInfo.status.toStr
                   ++ " state" }, s)
      else
        let _ := killOk
        if win then
          (.awaitKill scriptInfo.pid scriptInfo.startTime,
           { s with
             kills := s.kills ++ [{ pid := scriptInfo.pid, win := true }] })
        else
          let scriptInfo' :=
            { scriptInfo with
              status := .stopped
              endTime := some now
              duration := some (now - scriptInfo.startTime) }
          (.done { success := true, message := "Script stopped successfully",
                   id := some id,
                   details := some { pid := scriptInfo.pid, stopTime := now,
                                     duration := now - scriptInfo.startTime } },
           { s with
             table := mapSet id scriptInfo' s.table
             timers := s.timers ++ [.evictStopped id (now + 5000)]
             kills := s.kills ++ [{ pid := scriptInfo.pid, win := false }] })

/-- Resumption of the win32 `stopScript` after the `taskkill` wait
(whether the kill succeeded or its failure was swallowed by the inner
catch).  The source holds a reference to the `scriptInfo` object
fetched before the suspension and mutates it unconditionally —
without re-checking its status — then schedules the 5000 ms eviction
and returns.  In the table embedding this aliased mutation updates
the entry if the id is still present (it is the same object, and the
close handler never changes `pid` or `startTime`, so the captured
values agree with the entry's) and is invisible if the entry was
evicted during the wait.  The success return is built from the
captured `pid` and `startTime` and the fresh `now`, so it is the
same object under every interleaving. -/
def stopFinish (id : String) (pid startTime now : Nat) (s : MState) :
    StopResult × MState :=
  let table' :=
    match mapGet id s.table with
    | some scriptInfo =>
        mapSet id
          { scriptInfo with
            status := .stopped
            endTime := some now
            duration := some (now - scriptInfo.startTime) } s.table
    | none => s.table
  ({ success := true, message := "Script stopped successfully",
     id := some id,
     details := some { pid := pid, stopTime := now,
                       duration := now - startTime } },
   { s with
     table := table'
     timers := s.timers ++ [.evictStopped id (now + 5000)] })

/-- The externally-visible projection of a task produced by
`listScripts` (never the raw output buffers). -/
structure ScriptView where
  id : String
  scriptPath : String
  args : List String
  pid : Nat
  status : Status
  startTime : Nat
  endTime : Option Nat
  duration : Option Nat
  workingDir : String
deriving DecidableEq, Repr

/-- One entry of the `listScripts` snapshot.  `endTime` is rendered
with `endTime ? endTime.toISOString() : null` (a Date object is always
truthy, so this is the identity on presence), while `duration` is
rendered with `scriptInfo.duration || null`, which collapses both an
absent duration and a duration of `0` to `null`. -/
def viewOf (t : Task) : ScriptView :=
  let durationView : Option Nat :=
    match t.duration with
    | none => none
    | some d => if d = 0 then none else some d
  { id := t.id, scriptPath := t.scriptPath, args := t.args, pid := t.pid,
    status := t.status, startTime := t.startTime,
    endTime := t.endTime,
    duration := durationView,
    workingDir := t.workingDir }

/-- The object `listScripts` returns. -/
structure ListResult where
  success : Bool
  count : Nat
  scripts : List ScriptView
deriving DecidableEq, Repr

/-- `listScripts()`: a snapshot copy built by iterating the table. -/
def listScripts (s : MState) : ListResult :=
  let scripts := s.table.map (fun p => viewOf p.2)
  { success := true, count := scripts.length, scripts := scripts }

/-- The `tasks` block of `getStatus()`. -/
structure TasksStatus where
  total : Nat
  running : Nat
  completed : Nat
  stopped : Nat
deriving DecidableEq, Repr

/-- The portion of the `getStatus()` result that depends on the Task
Table (`success` flag and `tasks` breakdown; uptime, timestamp and
memory figures are environment reads with no bearing on the table). -/
structure StatusResult where
  success : Bool
  tasks : TasksStatus
deriving DecidableEq, Repr

/-- `getStatus()`: `total` is `runningScripts.size`; each forEach
iteration increments the bucket named by the entry's status (the
`hasOwnProperty` guard always passes since `Status` has exactly the
three keyed constructors). -/
def getStatus (s : MState) : StatusResult :=
  { success := true,
    tasks := { total := s.table.length,
               running := s.table.countP (fun p => decide (p.2.status = .running)),
               completed := s.table.countP (fun p => decide (p.2.status = .completed)),
               stopped := s.table.countP (fun p => decide (p.2.status = .stopped)) } }

/-- Firing of a pending eviction timer.  The completed-record timer
deletes only if the entry is still present with status `'completed'`;
the stopped-record timer deletes unconditionally. -/
def fireTimer (ev : TimerEv) (s : MState) : MState :=
  match ev with
  | .evictCompleted id _ =>
      match mapGet id s.table with
      | some scriptInfo =>
          if scriptInfo.status = .completed then
            { s with table := mapDelete id s.table }
          else s
      | none => s
  | .evictStopped id _ => { s with table := mapDelete id s.table }

/-- Every event-loop turn that can touch the manager state: the public
calls (`runScript`, `listScripts`, `getStatus`), the two phases of
`stopScript` (which on win32 suspends between its status check and
its status write, so the phases are separate turns), the process-exit
callback, and the firing of an eviction timer. -/
inductive Op where
  | runOp (scriptPath : String) (args : List String) (options : RunOptions)
      (spawnRes : Except String Nat) (id : String) (workingDir : String)
      (startTime : Nat)
  | stopBeginOp (id : String) (win killOk : Bool) (now : Nat)
  | stopFinishOp (id : String) (pid startTime now : Nat)
  | closeOp (id : String) (code : Int) (now : Nat)
  | timerOp (ev : TimerEv)
  | listOp
  | statusOp

/-- State transition of one turn.  `listScripts` and `getStatus` are
pure reads of the table. -/
def applyOp (op : Op) (s : MState) : MState :=
  match op with
  | .runOp sp a o res id wd t0 => (runScript sp a o res id wd t0 s).state
  | .stopBeginOp id w k n => (stopBegin id w k n s).2
  | .stopFinishOp id pid st n => (stopFinish id pid st n s).2
  | .closeOp id c n => closeHandler id c n s
  | .timerOp ev => fireTimer ev s
  | .listOp => s
  | .statusOp => s

/-- A schedule of turns, run in order. -/
def applyOps (ops : List Op) (s : MState) : MState :=
  ops.foldl (fun s op => applyOp op s) s

/-- `stopScript(id)`, assembled from its phases.  On the failure paths
and on POSIX (`win = false`) the call completes synchronously in
`stopBegin` and the schedule `mid` is irrelevant.  On win32 the call
suspends awaiting `taskkill`; `mid` is the event-loop activity
dispatched during that wait (close handlers of tracked children,
timer firings, other requests), after which `stopFinish` resumes with
the captured `pid`/`startTime` and writes the status
unconditionally. -/
def stopScript (id : String) (win killOk : Bool) (now : Nat)
    (mid : List Op) (s : MState) : StopResult × MState :=
  match stopBegin id win killOk now s with
  | (.done res, s') => (res, s')
  | (.awaitKill pid st, s') => stopFinish id pid st now (applyOps mid s')

/-- Freshness side condition for an operation: `randomUUID()` never
returns an id already in use (the spec's "generated at invocation
time, never reused").  Only `runScript` generates ids. -/
def freshFor (op : Op) (s : MState) : Prop :=
  match op with
  | .runOp _ _ _ _ id _ _ => mapHas id s.table = false
  | _ => True

/-- The parsed JSON body of `POST /api/scripts/run`. -/
structure RunBody where
  script : Option String := none
  args : Option (List String) := none
  oneTime : Option Bool := none
deriving DecidableEq, Repr

/-- A response of the run endpoint: 400 with an error string, or 200
with the `runScript` result. -/
inductive RunEndpointResp where
  | badRequest (error : String)
  | ok (result : RunResult)
deriving DecidableEq, Repr

/-- The `POST /api/scripts/run` handler from `src/index.js`: it
destructures only `script` and `args = []` from the body and calls
`runScript(script, args)` with no options argument, so `runScript`
runs with its default `oneTime = false` — the body's `oneTime` field
is never read.  A missing `script` (or an empty string, which is
falsy in the `if (!script)` check) yields 400 with
`{error:'Script path is required'}`; otherwise 200 with the
`runScript` result. -/
def runEndpoint (body : RunBody) (spawnRes : Except String Nat)
    (id wd : String) (t0 : Nat) (s : MState) : RunEndpointResp × MState :=
  match body.script with
  | none => (.badRequest "Script path is required", s)
  | some sp =>
      if sp = "" then (.badRequest "Script path is required", s)
      else
        let out := runScript sp (body.args.getD []) {} spawnRes id wd t0 s
        (.ok out.result, out.state)

/-! ### Concrete states used by witnesses and counterexamples -/

/-- The manager state after one successful tracked `runScript` call on
the empty state: script `a.js`, no arguments, child pid 42, id `t1`,
working directory `/w`, start time 0. -/
def demoState : MState :=
  (runScript "a.js" [] {} (.ok 42) "t1" "/w" 0 {}).state

/-- The Task Table entry `demoState` holds under id `t1`. -/
def demoTask : Task :=
  { id := "t1", scriptPath := "a.js", args := [], pid := 42, startTime := 0,
    status := .running, workingDir := "/w" }

/-- `demoState` after `stopScript "t1"` at time 100 (POSIX platform,
kill delivered; no suspension, so the schedule is empty). -/
def demoStopped : MState := (stopScript "t1" false true 100 [] demoState).2

/-- The entry `demoStopped` holds under id `t1`. -/
def demoStoppedTask : Task :=
  { demoTask with status := .stopped, endTime := some 100,
                  duration := some 100 }

/-- `demoStopped` after the stopped child's close event fires at time
200 with exit code 0 — before the 5-second eviction deadline. -/
def demoClosed : MState := closeHandler "t1" 0 200 demoStopped

/-- `demoState` after `stopScript "t1"` at time 0: the recorded
duration is 0 milliseconds. -/
def demoZeroStop : MState := (stopScript "t1" false true 0 [] demoState).2

/-- A win32 schedule in which, during `stopScript`'s `taskkill` wait,
the tracked child's own close event fires (exit code 0, time 150). -/
def demoWinMid : List Op := [Op.closeOp "t1" 0 150]

/-- `demoState` after a win32 `stopScript "t1"` (resuming at time 300)
whose `taskkill` wait was interleaved by the child's close event. -/
def demoWinStopped : MState :=
  (stopScript "t1" true true 300 demoWinMid demoState).2

/-- The entry `demoZeroStop` holds under id `t1`: a task that was
stopped 0 ms after it started, so its recorded duration is 0. -/
def demoZeroTask : Task :=
  { demoTask with status := .stopped, endTime := some 0,
                  duration := some 0 }

/-! ### Lemmas about the Map embedding -/

theorem mapGet_cons (k : String) (p : String × Task) (t : Table) :
    mapGet k (p :: t) = if p.1 = k then some p.2 else mapGet k t := by
  by_cases h : p.1 = k <;> simp [mapGet, List.find?_cons, h]

theorem mapHas_cons (k : String) (p : String × Task) (t : Table) :
    mapHas k (p :: t) = (decide (p.1 = k) || mapHas k t) := by
  simp [mapHas, List.any_cons]

theorem mapHas_eq_isSome (k : String) (t : Table) :
    mapHas k t = (mapGet k t).isSome := by
  induction t with
  | nil => rfl
  | cons p t ih =>
      rw [mapHas_cons, mapGet_cons]
      by_cases h : p.1 = k
      · simp [h]
      · simp [h, ih]

theorem mapHas_eq_false_iff (k : String) (t : Table) :
    mapHas k t = false ↔ mapGet k t = none := by
  rw [mapHas_eq_isSome]
  cases mapGet k t <;> simp

theorem mapSet_of_fresh {k : String} {t : Table} (h : mapGet k t = none)
    (v : Task) : mapSet k v t = t ++ [(k, v)] := by
  have hh : mapHas k t = false := (mapHas_eq_false_iff k t).mpr h
  simp [mapSet, hh]

theorem mapGet_append_single_self {k : String} {t : Table}
    (h : mapGet k t = none) (v : Task) :
    mapGet k (t ++ [(k, v)]) = some v := by
  induction t with
  | nil => simp [mapGet, List.find?_cons]
  | cons p t ih =>
      rw [mapGet_cons] at h
      rw [List.cons_append, mapGet_cons]
      by_cases hp : p.1 = k
      · rw [if_pos hp] at h; exact absurd h (by simp)
      · rw [if_neg hp] at h
        rw [if_neg hp]
        exact ih h

theorem mapGet_append_single_ne {k k' : String} (hne : k' ≠ k) (v : Task)
    (t : Table) : mapGet k' (t ++ [(k, v)]) = mapGet k' t := by
  induction t with
  | nil =>
      have : ¬ (k = k') := fun h => hne h.symm
      simp [mapGet, List.find?_cons, this]
  | cons p t ih =>
      rw [List.cons_append, mapGet_cons, mapGet_cons]
      by_cases hp : p.1 = k'
      · simp [hp]
      · rw [if_neg hp, if_neg hp]
        exact ih

theorem mapGet_replace_self {k : String} (v : Task) (t : Table)
    (hh : mapGet k t ≠ none) :
    mapGet k (t.map (fun p => if p.1 = k then (k, v) else p)) = some v := by
  induction t with
  | nil => exact absurd rfl hh
  | cons p t ih =>
      rw [mapGet_cons] at hh
      rw [List.map_cons]
      by_cases hp : p.1 = k
      · simp [hp, mapGet_cons]
      · rw [if_neg hp] at hh
        rw [if_neg hp, mapGet_cons, if_neg hp]
        exact ih hh

theorem mapGet_replace_ne {k k' : String} (hne : k' ≠ k) (v : Task)
    (t : Table) :
    mapGet k' (t.map (fun p => if p.1 = k then (k, v) else p)) = mapGet k' t := by
  induction t with
  | nil => rfl
  | cons p t ih =>
      rw [List.map_cons, mapGet_cons, mapGet_cons]
      by_cases hp : p.1 = k
      · have hk : ¬ (k = k') := fun h => hne h.symm
        have hq : ¬ (p.1 = k') := by rw [hp]; exact hk
        rw [if_pos hp]
        simp only [hk, if_false, hq, if_false]
        exact ih
      · rw [if_neg hp]
        by_cases hq : p.1 = k'
        · simp [hq, mapGet_cons]
        · rw [if_neg hq, if_neg hq]
          exact ih

theorem mapGet_mapSet_self (k : String) (v : Task) (t : Table) :
    mapGet k (mapSet k v t) = some v := by
  unfold mapSet
  by_cases hh : mapHas k t = true
  · rw [if_pos hh]
    have : mapGet k t ≠ none := by
      intro hn
      rw [(mapHas_eq_false_iff k t).mpr hn] at hh
      exact Bool.false_ne_true hh
    exact mapGet_replace_self v t this
  · rw [if_neg hh]
    have hf : mapHas k t = false := Bool.eq_false_iff.mpr hh
    exact mapGet_append_single_self ((mapHas_eq_false_iff k t).mp hf) v

theorem mapGet_mapSet_ne {k k' : String} (hne : k' ≠ k) (v : Task)
    (t : Table) : mapGet k' (mapSet k v t) = mapGet k' t := by
  unfold mapSet
  by_cases hh : mapHas k t = true
  · rw [if_pos hh]
    exact mapGet_replace_ne hne v t
  · rw [if_neg hh]
    exact mapGet_append_single_ne hne v t

theorem mapGet_mapDelete_self (k : String) (t : Table) :
    mapGet k (mapDelete k t) = none := by
  induction t with
  | nil => rfl
  | cons p t ih =>
      simp only [mapDelete] at ih ⊢
      rw [List.filter_cons]
      by_cases hp : p.1 = k
      · have hd : decide (p.1 ≠ k) = false := by simp [hp]
        rw [hd, if_neg Bool.false_ne_true]
        exact ih
      · have hd : decide (p.1 ≠ k) = true := by simp [hp]
        rw [hd, if_pos rfl, mapGet_cons, if_neg hp]
        exact ih

theorem mapGet_mapDelete_ne {k k' : String} (hne : k' ≠ k) (t : Table) :
    mapGet k' (mapDelete k t) = mapGet k' t := by
  induction t with
  | nil => rfl
  | cons p t ih =>
      simp only [mapDelete] at ih ⊢
      rw [List.filter_cons]
      by_cases hp : p.1 = k
      · have hq : ¬ (p.1 = k') := by rw [hp]; exact fun h => hne h.symm
        have hd : decide (p.1 ≠ k) = false := by simp [hp]
        rw [hd, if_neg Bool.false_ne_true, mapGet_cons, if_neg hq]
        exact ih
      · have hd : decide (p.1 ≠ k) = true := by simp [hp]
        rw [hd, if_pos rfl, mapGet_cons, mapGet_cons]
        by_cases hq : p.1 = k'
        · simp [hq]
        · rw [if_neg hq, if_neg hq]
          exact ih

theorem mapHas_of_get_eq_some {k : String} {t : Table} {v : Task}
    (h : mapGet k t = some v) : mapHas k t = true := by
  rw [mapHas_eq_isSome, h]; rfl

/-! ### Characterization lemmas for the operations -/

theorem runScript_state_error (sp : String) (a : List String)
    (o : RunOptions) (msg : String) (id wd : String) (t0 : Nat) (s : MState) :
    (runScript sp a o (.error msg) id wd t0 s).state = s := by
  cases o with
  | mk b => cases b <;> rfl

theorem runScript_state_ok (sp : String) (a : List String) (b : Bool)
    (pid : Nat) (id wd : String) (t0 : Nat) (s : MState) :
    (runScript sp a ⟨b⟩ (.ok pid) id wd t0 s).state =
      if b then s
      else { s with table := mapSet id (newTask id sp a pid t0 wd) s.table } := by
  cases b <;> rfl

theorem stopBegin_eq_not_found {id : String} {s : MState}
    (h : mapGet id s.table = none) (w k : Bool) (n : Nat) :
    stopBegin id w k n s =
      (.done { success := false, error := some "Script not found",
               message := "No running script with the specified ID" }, s) := by
  unfold stopBegin
  rw [h]

theorem stopBegin_eq_not_running {id : String} {s : MState} {t : Task}
    (h : mapGet id s.table = some t) (ht : t.status ≠ .running)
    (w k : Bool) (n : Nat) :
    stopBegin id w k n s =
      (.done { success := false, error := some "Script not running",
               message := "Script is in " ++ t.status.toStr ++ " state" },
       s) := by
  unfold stopBegin
  rw [h]
  simp only [ne_eq, ht, not_false_iff, if_true]

theorem stopBegin_eq_posix {id : String} {s : MState} {t : Task}
    (h : mapGet id s.table = some t) (ht : t.status = .running)
    (k : Bool) (n : Nat) :
    stopBegin id false k n s =
      (.done { success := true, message := "Script stopped successfully",
               id := some id,
               details := some { pid := t.pid, stopTime := n,
                                 duration := n - t.startTime } },
       { s with
         table := mapSet id
           { t with status := .stopped, endTime := some n,
                    duration := some (n - t.startTime) } s.table
         timers := s.timers ++ [.evictStopped id (n + 5000)]
         kills := s.kills ++ [{ pid := t.pid, win := false }] }) := by
  unfold stopBegin
  rw [h]
  simp [ht]

theorem stopBegin_eq_win {id : String} {s : MState} {t : Task}
    (h : mapGet id s.table = some t) (ht : t.status = .running)
    (k : Bool) (n : Nat) :
    stopBegin id true k n s =
      (.awaitKill t.pid t.startTime,
       { s with kills := s.kills ++ [{ pid := t.pid, win := true }] }) := by
  unfold stopBegin
  rw [h]
  simp [ht]

theorem stopFinish_eq_present {id : String} {s : MState} {t : Task}
    (h : mapGet id s.table = some t) (pid st n : Nat) :
    stopFinish id pid st n s =
      ({ success := true, message := "Script stopped successfully",
         id := some id,
         details := some { pid := pid, stopTime := n,
                           duration := n - st } },
       { s with
         table := mapSet id
           { t with status := .stopped, endTime := some n,
                    duration := some (n - t.startTime) } s.table
         timers := s.timers ++ [.evictStopped id (n + 5000)] }) := by
  unfold stopFinish
  rw [h]

theorem stopFinish_eq_absent {id : String} {s : MState}
    (h : mapGet id s.table = none) (pid st n : Nat) :
    stopFinish id pid st n s =
      ({ success := true, message := "Script stopped successfully",
         id := some id,
         details := some { pid := pid, stopTime := n,
                           duration := n - st } },
       { s with timers := s.timers ++ [.evictStopped id (n + 5000)] }) := by
  unfold stopFinish
  rw [h]

theorem stopScript_eq_not_found {id : String} {s : MState}
    (h : mapGet id s.table = none) (w k : Bool) (n : Nat) (mid : List Op) :
    stopScript id w k n mid s =
      ({ success := false, error := some "Script not found",
         message := "No running script with the specified ID" }, s) := by
  unfold stopScript
  rw [stopBegin_eq_not_found h w k n]

theorem stopScript_eq_not_running {id : String} {s : MState} {t : Task}
    (h : mapGet id s.table = some t) (ht : t.status ≠ .running)
    (w k : Bool) (n : Nat) (mid : List Op) :
    stopScript id w k n mid s =
      ({ success := false, error := some "Script not running",
         message := "Script is in " ++ t.status.toStr ++ " state" }, s) := by
  unfold stopScript
  rw [stopBegin_eq_not_running h ht w k n]

theorem stopScript_eq_stop_posix {id : String} {s : MState} {t : Task}
    (h : mapGet id s.table = some t) (ht : t.status = .running)
    (k : Bool) (n : Nat) (mid : List Op) :
    stopScript id false k n mid s =
      ({ success := true, message := "Script stopped successfully",
         id := some id,
         details := some { pid := t.pid, stopTime := n,
                           duration := n - t.startTime } },
       { s with
         table := mapSet id
           { t with status := .stopped, endTime := some n,
                    duration := some (n - t.startTime) } s.table
         timers := s.timers ++ [.evictStopped id (n + 5000)]
         kills := s.kills ++ [{ pid := t.pid, win := false }] }) := by
  unfold stopScript
  rw [stopBegin_eq_posix h ht k n]

theorem stopScript_eq_stop_win {id : String} {s : MState} {t : Task}
    (h : mapGet id s.table = some t) (ht : t.status = .running)
    (k : Bool) (n : Nat) (mid : List Op) :
    stopScript id true k n mid s =
      stopFinish id t.pid t.startTime n
        (applyOps mid
          { s with kills := s.kills ++ [{ pid := t.pid, win := true }] }) := by
  unfold stopScript
  rw [stopBegin_eq_win h ht k n]

theorem closeHandler_eq_none {id : String} {s : MState}
    (h : mapGet id s.table = none) (c : Int) (n : Nat) :
    closeHandler id c n s = s := by
  unfold closeHandler
  rw [h]

theorem closeHandler_eq_some {id : String} {s : MState} {t : Task}
    (h : mapGet id s.table = some t) (c : Int) (n : Nat) :
    closeHandler id c n s =
      { s with
        table := mapSet id
          { t with status := .completed, exitCode := some c,
                   endTime := some n,
                   duration := some (n - t.startTime) } s.table
        timers := s.timers ++ [.evictCompleted id (n + 60000)] } := by
  unfold closeHandler
  rw [h]

/-- If a turn leaves a task unchanged, its status cannot have moved
back to `'running'`. -/
theorem status_back_of_eq {t t' : Task} (e : t' = t) :
    t'.status = Status.running → t.status = Status.running := by
  subst e
  exact fun hx => hx

/-! ### Claim C1 -/

/-- Claim C1, counterexample: from the empty state, run a tracked
script (id `t1`, pid 42), stop it at time 100 — the task is now in the
terminal state `'stopped'` — and let the killed child's close event
fire at time 200, while the entry is still in the table (eviction is
due only at time 5100).  The close handler overwrites the status
unconditionally, so the task moves from the terminal state `'stopped'`
to the other terminal state `'completed'`, contradicting the claim
that a task in a terminal state never changes to the other terminal
state. -/
theorem C1_counterexample :
    (mapGet "t1" demoStopped.table).map Task.status = some Status.stopped ∧
    (mapGet "t1" (applyOp (Op.closeOp "t1" 0 200) demoStopped).table).map
      Task.status = some Status.completed := by
  decide

/-- On win32 the program can also overwrite `'completed'` with
`'stopped'`: `stopScript` suspends awaiting `taskkill` between its
status check and its status write, and if the tracked child's own
close event is dispatched during that wait (schedule `demoWinMid`)
the entry becomes `'completed'` — first conjunct — after which the
resuming write sets it back to `'stopped'` — second conjunct.  So
neither terminal state is stable against the other; only "never back
to `'running'`" survives, which is the amended C1. -/
theorem win32_completed_to_stopped :
    ((mapGet "t1" (applyOps demoWinMid
        (stopBegin "t1" true true 300 demoState).2).table).map Task.status
      = some Status.completed) ∧
    ((mapGet "t1" demoWinStopped.table).map Task.status
      = some Status.stopped) := by
  decide

/-- Claim C1 (amended): for every event-loop turn of the manager and
every task present in the Task Table before and after it, the status
only moves away from `'running'`: no turn ever moves a status
backward to `'running'`.  The reachable transitions are
`running → completed` (process-exit callback), `running → stopped`
(`stopScript`), `stopped → completed` (the process-exit callback
writes `'completed'` unconditionally while the entry is present; see
the counterexample), and, on win32, `completed → stopped` (the
resuming half of `stopScript` writes `'stopped'` unconditionally
after its `taskkill` wait; see `win32_completed_to_stopped`).  The
freshness hypothesis is the spec's guarantee that generated ids are
never reused. -/
theorem C1_status_forward (op : Op) (s : MState) (id : String)
    (t t' : Task) (hfresh : freshFor op s)
    (h : mapGet id s.table = some t)
    (h' : mapGet id (applyOp op s).table = some t') :
    t'.status = Status.running → t.status = Status.running := by
  cases op with
  | runOp sp a o res id' wd t0 =>
      simp only [freshFor] at hfresh
      have hne : id ≠ id' := by
        intro e
        rw [e, (mapHas_eq_false_iff id' s.table).mp hfresh] at h
        exact Option.noConfusion h
      obtain ⟨b⟩ := o
      cases res with
      | error msg =>
          have htab :
              (applyOp (Op.runOp sp a ⟨b⟩ (.error msg) id' wd t0) s).table
                = s.table := by
            show (runScript sp a ⟨b⟩ (.error msg) id' wd t0 s).state.table
              = s.table
            rw [runScript_state_error]
          rw [htab, h] at h'
          exact status_back_of_eq (Option.some.inj h').symm
      | ok pid =>
          cases b with
          | true =>
              have htab :
                  (applyOp (Op.runOp sp a ⟨true⟩ (.ok pid) id' wd t0) s).table
                    = s.table := rfl
              rw [htab, h] at h'
              exact status_back_of_eq (Option.some.inj h').symm
          | false =>
              have htab :
                  (applyOp (Op.runOp sp a ⟨false⟩ (.ok pid) id' wd t0) s).table
                    = mapSet id' (newTask id' sp a pid t0 wd) s.table := rfl
              rw [htab, mapGet_mapSet_ne hne, h] at h'
              exact status_back_of_eq (Option.some.inj h').symm
  | stopBeginOp id'' w k n =>
      cases hg : mapGet id'' s.table with
      | none =>
          have htab : (applyOp (Op.stopBeginOp id'' w k n) s).table
              = s.table := by
            show (stopBegin id'' w k n s).2.table = s.table
            rw [stopBegin_eq_not_found hg]
          rw [htab, h] at h'
          exact status_back_of_eq (Option.some.inj h').symm
      | some info =>
          by_cases hr : info.status = Status.running
          · cases w with
            | true =>
                have htab : (applyOp (Op.stopBeginOp id'' true k n) s).table
                    = s.table := by
                  show (stopBegin id'' true k n s).2.table = s.table
                  rw [stopBegin_eq_win hg hr]
                rw [htab, h] at h'
                exact status_back_of_eq (Option.some.inj h').symm
            | false =>
                have htab : (applyOp (Op.stopBeginOp id'' false k n) s).table
                    = mapSet id''
                        { info with status := .stopped, endTime := some n,
                                    duration := some (n - info.startTime) }
                        s.table := by
                  show (stopBegin id'' false k n s).2.table = _
                  rw [stopBegin_eq_posix hg hr]
                by_cases he : id = id''
                · subst he
                  rw [htab, mapGet_mapSet_self] at h'
                  have et' : t' =
                      { info with status := .stopped, endTime := some n,
                                  duration := some (n - info.startTime) } :=
                    (Option.some.inj h').symm
                  intro hx
                  rw [et'] at hx
                  simp at hx
                · rw [htab, mapGet_mapSet_ne he, h] at h'
                  exact status_back_of_eq (Option.some.inj h').symm
          · have htab : (applyOp (Op.stopBeginOp id'' w k n) s).table
                = s.table := by
              show (stopBegin id'' w k n s).2.table = s.table
              rw [stopBegin_eq_not_running hg hr]
            rw [htab, h] at h'
            exact status_back_of_eq (Option.some.inj h').symm
  | stopFinishOp id'' pid st n =>
      cases hg : mapGet id'' s.table with
      | none =>
          have htab : (applyOp (Op.stopFinishOp id'' pid st n) s).table
              = s.table := by
            show (stopFinish id'' pid st n s).2.table = s.table
            rw [stopFinish_eq_absent hg]
          rw [htab, h] at h'
          exact status_back_of_eq (Option.some.inj h').symm
      | some info =>
          have htab : (applyOp (Op.stopFinishOp id'' pid st n) s).table
              = mapSet id''
                  { info with status := .stopped, endTime := some n,
                              duration := some (n - info.startTime) }
                  s.table := by
            show (stopFinish id'' pid st n s).2.table = _
            rw [stopFinish_eq_present hg]
          by_cases he : id = id''
          · subst he
            rw [htab, mapGet_mapSet_self] at h'
            have et' : t' =
                { info with status := .stopped, endTime := some n,
                            duration := some (n - info.startTime) } :=
              (Option.some.inj h').symm
            intro hx
            rw [et'] at hx
            simp at hx
          · rw [htab, mapGet_mapSet_ne he, h] at h'
            exact status_back_of_eq (Option.some.inj h').symm
  | closeOp id'' c n =>
      cases hg : mapGet id'' s.table with
      | none =>
          have htab : (applyOp (Op.closeOp id'' c n) s).table = s.table := by
            show (closeHandler id'' c n s).table = s.table
            rw [closeHandler_eq_none hg]
          rw [htab, h] at h'
          exact status_back_of_eq (Option.some.inj h').symm
      | some info =>
          have htab : (applyOp (Op.closeOp id'' c n) s).table
              = mapSet id''
                  { info with status := .completed, exitCode := some c,
                              endTime := some n,
                              duration := some (n - info.startTime) }
                  s.table := by
            show (closeHandler id'' c n s).table = _
            rw [closeHandler_eq_some hg]
          by_cases he : id = id''
          · subst he
            rw [htab, mapGet_mapSet_self] at h'
            have et' : t' =
                { info with status := .completed, exitCode := some c,
                            endTime := some n,
                            duration := some (n - info.startTime) } :=
              (Option.some.inj h').symm
            intro hx
            rw [et'] at hx
            simp at hx
          · rw [htab, mapGet_mapSet_ne he, h] at h'
            exact status_back_of_eq (Option.some.inj h').symm
  | timerOp ev =>
      cases ev with
      | evictCompleted id'' ft =>
          cases hg : mapGet id'' s.table with
          | none =>
              have htab :
                  (applyOp (Op.timerOp (.evictCompleted id'' ft)) s).table
                    = s.table := by
                show (fireTimer (.evictCompleted id'' ft) s).table = s.table
                simp [fireTimer, hg]
              rw [htab, h] at h'
              exact status_back_of_eq (Option.some.inj h').symm
          | some info =>
              by_cases hc : info.status = Status.completed
              · have htab :
                    (applyOp (Op.timerOp (.evictCompleted id'' ft)) s).table
                      = mapDelete id'' s.table := by
                  show (fireTimer (.evictCompleted id'' ft) s).table = _
                  simp [fireTimer, hg, hc]
                by_cases he : id = id''
                · subst he
                  rw [htab, mapGet_mapDelete_self] at h'
                  exact Option.noConfusion h'
                · rw [htab, mapGet_mapDelete_ne he, h] at h'
                  exact status_back_of_eq (Option.some.inj h').symm
              · have htab :
                    (applyOp (Op.timerOp (.evictCompleted id'' ft)) s).table
                      = s.table := by
                  show (fireTimer (.evictCompleted id'' ft) s).table = s.table
                  simp [fireTimer, hg, hc]
                rw [htab, h] at h'
                exact status_back_of_eq (Option.some.inj h').symm
      | evictStopped id'' ft =>
          have htab : (applyOp (Op.timerOp (.evictStopped id'' ft)) s).table
              = mapDelete id'' s.table := rfl
          by_cases he : id = id''
          · subst he
            rw [htab, mapGet_mapDelete_self] at h'
            exact Option.noConfusion h'
          · rw [htab, mapGet_mapDelete_ne he, h] at h'
            exact status_back_of_eq (Option.some.inj h').symm
  | listOp =>
      have htab : (applyOp Op.listOp s).table = s.table := rfl
      rw [htab, h] at h'
      exact status_back_of_eq (Option.some.inj h').symm
  | statusOp =>
      have htab : (applyOp Op.statusOp s).table = s.table := rfl
      rw [htab, h] at h'
      exact status_back_of_eq (Option.some.inj h').symm

/-- Witness for C1: the amended theorem applied to the running demo
task and the (state-preserving) `listScripts` turn, with every
hypothesis — including the implication's antecedent — discharged at
the concrete input. -/
theorem C1_status_forward_witness :
    mapGet "t1" demoState.table = some demoTask ∧
    demoTask.status = Status.running :=
  ⟨by decide,
   C1_status_forward Op.listOp demoState "t1" demoTask demoTask trivial
     (by decide) (by decide) (by decide)⟩

/-! ### Claims C2, C4, C5, C6 -/

/-- Claim C2: `runScript` is embedded as a total function — the
promise executor calls `resolve` on every path, so every input
produces a structured `RunOutcome` and no exception escapes.  In
particular, when spawning throws (executable not found, permission
denied — oracle outcome `.error msg`), the call resolves with
`success := false` and the thrown message (`error.message ||
'Unknown error'`), and the manager state — in particular the Task
Table — is left unchanged: no task is inserted. -/
theorem C2_spawn_failure (sp : String) (a : List String) (o : RunOptions)
    (msg : String) (id wd : String) (t0 : Nat) (s : MState) :
    ((runScript sp a o (.error msg) id wd t0 s).result.success = false) ∧
    ((runScript sp a o (.error msg) id wd t0 s).result.error
      = some (if msg = "" then "Unknown error" else msg)) ∧
    ((runScript sp a o (.error msg) id wd t0 s).state = s) := by
  obtain ⟨b⟩ := o
  cases b <;> exact ⟨rfl, rfl, rfl⟩

/-- Appending-only audit: no turn ever removes a recorded kill
request. -/
theorem applyOp_kills_extend (op : Op) (s : MState) :
    ∃ l, (applyOp op s).kills = s.kills ++ l := by
  cases op with
  | runOp sp a o res id wd t0 =>
      obtain ⟨b⟩ := o
      cases res <;> cases b <;> exact ⟨[], by rw [List.append_nil]; rfl⟩
  | stopBeginOp id w k n =>
      cases hg : mapGet id s.table with
      | none =>
          refine ⟨[], ?_⟩
          rw [List.append_nil]
          show (stopBegin id w k n s).2.kills = s.kills
          rw [stopBegin_eq_not_found hg]
      | some info =>
          by_cases hr : info.status = Status.running
          · cases w with
            | true =>
                refine ⟨[{ pid := info.pid, win := true }], ?_⟩
                show (stopBegin id true k n s).2.kills = _
                rw [stopBegin_eq_win hg hr]
            | false =>
                refine ⟨[{ pid := info.pid, win := false }], ?_⟩
                show (stopBegin id false k n s).2.kills = _
                rw [stopBegin_eq_posix hg hr]
          · refine ⟨[], ?_⟩
            rw [List.append_nil]
            show (stopBegin id w k n s).2.kills = s.kills
            rw [stopBegin_eq_not_running hg hr]
  | stopFinishOp id pid st n =>
      exact ⟨[], by rw [List.append_nil]; rfl⟩
  | closeOp id c n =>
      cases hg : mapGet id s.table with
      | none =>
          refine ⟨[], ?_⟩
          rw [List.append_nil]
          show (closeHandler id c n s).kills = s.kills
          rw [closeHandler_eq_none hg]
      | some info =>
          refine ⟨[], ?_⟩
          rw [List.append_nil]
          show (closeHandler id c n s).kills = s.kills
          rw [closeHandler_eq_some hg]
  | timerOp ev =>
      cases ev with
      | evictCompleted id ft =>
          cases hg : mapGet id s.table with
          | none =>
              refine ⟨[], ?_⟩
              rw [List.append_nil]
              show (fireTimer (.evictCompleted id ft) s).kills = s.kills
              simp [fireTimer, hg]
          | some info =>
              by_cases hc : info.status = Status.completed <;>
                refine ⟨[], ?_⟩ <;> rw [List.append_nil] <;>
                show (fireTimer (.evictCompleted id ft) s).kills = s.kills <;>
                simp [fireTimer, hg, hc]
      | evictStopped id ft =>
          exact ⟨[], by rw [List.append_nil]; rfl⟩
  | listOp => exact ⟨[], by rw [List.append_nil]; rfl⟩
  | statusOp => exact ⟨[], by rw [List.append_nil]; rfl⟩

/-- A recorded kill request survives any schedule of turns. -/
theorem mem_applyOps_kills {x : KillReq} {s : MState}
    (hx : x ∈ s.kills) (ops : List Op) : x ∈ (applyOps ops s).kills := by
  induction ops generalizing s with
  | nil => exact hx
  | cons op ops ih =>
      have hstep : applyOps (op :: ops) s = applyOps ops (applyOp op s) := rfl
      rw [hstep]
      obtain ⟨l, hl⟩ := applyOp_kills_extend op s
      exact ih (by rw [hl]; exact List.mem_append_left l hx)

/-- Claim C4: `stopScript` on an id not in the Task Table returns
`{success:false, error:'Script not found'}`, and on a task whose
status is not `'running'` returns `{success:false, error:'Script not
running'}` with the current status interpolated into the message; in
both cases the state (Task Table, timers, signal audit) is returned
unchanged, and the embedding is a total function, so no exception is
thrown.  Both failure paths complete synchronously before the win32
suspension point, so the result holds under every suspension schedule
`mid`. -/
theorem C4_stop_failures (id : String) (w k : Bool) (n : Nat)
    (mid : List Op) (s : MState) :
    (mapGet id s.table = none →
      stopScript id w k n mid s =
        ({ success := false, error := some "Script not found",
           message := "No running script with the specified ID" }, s)) ∧
    (∀ t : Task, mapGet id s.table = some t → t.status ≠ Status.running →
      stopScript id w k n mid s =
        ({ success := false, error := some "Script not running",
           message := "Script is in " ++ t.status.toStr ++ " state" }, s)) :=
  ⟨fun h => stopScript_eq_not_found h w k n mid,
   fun _ h ht => stopScript_eq_not_running h ht w k n mid⟩

/-- Witness for C4: both failure cases at concrete inputs — an unknown
id against `demoState`, and the already-stopped task of
`demoStopped`. -/
theorem C4_stop_failures_witness :
    (stopScript "zz" false true 7 [] demoState =
      ({ success := false, error := some "Script not found",
         message := "No running script with the specified ID" }, demoState)) ∧
    (stopScript "t1" false true 300 [] demoStopped =
      ({ success := false, error := some "Script not running",
         message := "Script is in stopped state" }, demoStopped)) := by
  constructor
  · exact (C4_stop_failures "zz" false true 7 [] demoState).1 (by decide)
  · exact (C4_stop_failures "t1" false true 300 [] demoStopped).2
      demoStoppedTask (by decide) (by decide)

/-- Claim C5: `stopScript` on a task with status `'running'` records
the platform-specific termination attempt (the `kills` audit gains
the task's pid with the platform flag `w`), and — regardless of
whether the kill delivery succeeded (`k` is universally quantified
and unused, because the source catches and ignores kill errors) —
sets the status to `'stopped'` with `endTime` and `duration`,
schedules eviction of the entry 5000 ms later, and returns
`{success:true, id, pid, stopTime, duration}`.  The first four
conjuncts state this for the POSIX path and the uninterrupted win32
path (empty schedule, where the check-to-write gap is not used by
anything else); the last three hold under EVERY suspension schedule
`mid`: the success return is built from the captured pid/startTime,
the 5 s eviction is scheduled, and the kill request is on record. -/
theorem C5_stop_running (id : String) (w k : Bool) (n : Nat)
    (mid : List Op) (s : MState) (t : Task)
    (h : mapGet id s.table = some t)
    (hr : t.status = Status.running) :
    ((stopScript id w k n [] s).1 =
      { success := true, message := "Script stopped successfully",
        id := some id,
        details := some { pid := t.pid, stopTime := n,
                          duration := n - t.startTime } }) ∧
    (mapGet id (stopScript id w k n [] s).2.table =
      some { t with status := .stopped, endTime := some n,
                    duration := some (n - t.startTime) }) ∧
    ((stopScript id w k n [] s).2.timers
      = s.timers ++ [.evictStopped id (n + 5000)]) ∧
    ((stopScript id w k n [] s).2.kills
      = s.kills ++ [{ pid := t.pid, win := w }]) ∧
    ((stopScript id w k n mid s).1 =
      { success := true, message := "Script stopped successfully",
        id := some id,
        details := some { pid := t.pid, stopTime := n,
                          duration := n - t.startTime } }) ∧
    (TimerEv.evictStopped id (n + 5000)
      ∈ (stopScript id w k n mid s).2.timers) ∧
    (({ pid := t.pid, win := w } : KillReq)
      ∈ (stopScript id w k n mid s).2.kills) := by
  cases w with
  | false =>
      rw [stopScript_eq_stop_posix h hr k n [],
          stopScript_eq_stop_posix h hr k n mid]
      refine ⟨rfl, mapGet_mapSet_self id _ s.table, rfl, rfl, rfl, ?_, ?_⟩
      · exact List.mem_append_right _ (List.mem_singleton.mpr rfl)
      · exact List.mem_append_right _ (List.mem_singleton.mpr rfl)
  | true =>
      have hmidset : ∀ ops : List Op,
          stopScript id true k n ops s
            = stopFinish id t.pid t.startTime n
                (applyOps ops
                  { s with
                    kills := s.kills ++ [{ pid := t.pid, win := true }] }) :=
        fun ops => stopScript_eq_stop_win h hr k n ops
      have hempty : stopScript id true k n [] s
          = stopFinish id t.pid t.startTime n
              { s with kills := s.kills ++ [{ pid := t.pid, win := true }] } :=
        hmidset []
      have hpresent :
          mapGet id ({ s with
            kills := s.kills ++ [{ pid := t.pid, win := true }] } :
              MState).table = some t := h
      rw [hempty, stopFinish_eq_present hpresent t.pid t.startTime n]
      refine ⟨rfl, mapGet_mapSet_self id _ s.table, rfl, rfl, ?_, ?_, ?_⟩
      · rw [hmidset mid]
        rfl
      · rw [hmidset mid]
        show TimerEv.evictStopped id (n + 5000)
          ∈ (applyOps mid _).timers ++ [TimerEv.evictStopped id (n + 5000)]
        exact List.mem_append_right _ (List.mem_singleton.mpr rfl)
      · rw [hmidset mid]
        show ({ pid := t.pid, win := true } : KillReq)
          ∈ (applyOps mid
              { s with
                kills := s.kills ++ [{ pid := t.pid, win := true }] }).kills
        exact mem_applyOps_kills
          (List.mem_append_right _ (List.mem_singleton.mpr rfl)) mid

/-- Witness for C5: stopping the running demo task at time 100 with
`killOk = false` (the kill delivery failed) still stops it. -/
theorem C5_stop_running_witness :
    ((stopScript "t1" false false 100 [] demoState).1 =
      { success := true, message := "Script stopped successfully",
        id := some "t1",
        details := some { pid := 42, stopTime := 100, duration := 100 } }) ∧
    (mapGet "t1" (stopScript "t1" false false 100 [] demoState).2.table =
      some { demoTask with status := .stopped, endTime := some 100,
                           duration := some 100 }) ∧
    ((stopScript "t1" false false 100 [] demoState).2.timers
      = demoState.timers ++ [.evictStopped "t1" 5100]) ∧
    ((stopScript "t1" false false 100 [] demoState).2.kills
      = demoState.kills ++ [{ pid := 42, win := false }]) ∧
    ((stopScript "t1" false false 100 [] demoState).1 =
      { success := true, message := "Script stopped successfully",
        id := some "t1",
        details := some { pid := 42, stopTime := 100, duration := 100 } }) ∧
    (TimerEv.evictStopped "t1" 5100
      ∈ (stopScript "t1" false false 100 [] demoState).2.timers) ∧
    (({ pid := 42, win := false } : KillReq)
      ∈ (stopScript "t1" false false 100 [] demoState).2.kills) :=
  C5_stop_running "t1" false false 100 [] demoState demoTask
    (by decide) (by decide)

/-- Claim C6: a `runScript` call with `options.oneTime = true` (and a
successful spawn) leaves the manager state — in particular the Task
Table — completely unchanged, resolves immediately with
`{success:true, id, mode:'oneTime'}` and the pid/scriptPath/args/
startTime details, and a later `stopScript` on the returned id
answers `{success:false, error:'Script not found'}` (the generated id
is fresh, so it is not in the table) under every suspension schedule
`mid` — the not-found path is synchronous. -/
theorem C6_oneTime (sp : String) (a : List String) (pid : Nat)
    (id wd : String) (t0 : Nat) (s : MState)
    (hfresh : mapGet id s.table = none) (w k : Bool) (n : Nat)
    (mid : List Op) :
    ((runScript sp a ⟨true⟩ (.ok pid) id wd t0 s).state = s) ∧
    ((runScript sp a ⟨true⟩ (.ok pid) id wd t0 s).result =
      { success := true, id := some id, mode := some "oneTime",
        message := "Script started and will run independently",
        details := some { pid := pid, scriptPath := sp, args := a,
                          startTime := t0 } }) ∧
    (stopScript id w k n mid
        (runScript sp a ⟨true⟩ (.ok pid) id wd t0 s).state =
      ({ success := false, error := some "Script not found",
         message := "No running script with the specified ID" },
       (runScript sp a ⟨true⟩ (.ok pid) id wd t0 s).state)) := by
  refine ⟨rfl, rfl, ?_⟩
  exact stopScript_eq_not_found hfresh w k n mid

/-- Witness for C6: a oneTime run of `b.sh` on the empty state. -/
theorem C6_oneTime_witness :
    ((runScript "b.sh" ["x"] ⟨true⟩ (.ok 9) "u2" "/w" 3 {}).state
      = ({} : MState)) ∧
    ((runScript "b.sh" ["x"] ⟨true⟩ (.ok 9) "u2" "/w" 3 {}).result =
      { success := true, id := some "u2", mode := some "oneTime",
        message := "Script started and will run independently",
        details := some { pid := 9, scriptPath := "b.sh", args := ["x"],
                          startTime := 3 } }) ∧
    (stopScript "u2" false true 50 []
        (runScript "b.sh" ["x"] ⟨true⟩ (.ok 9) "u2" "/w" 3 {}).state =
      ({ success := false, error := some "Script not found",
         message := "No running script with the specified ID" },
       (runScript "b.sh" ["x"] ⟨true⟩ (.ok 9) "u2" "/w" 3 {}).state)) :=
  C6_oneTime "b.sh" ["x"] 9 "u2" "/w" 3 {} (by decide) false true 50 []

/-! ### Claims C3, C7, C8, C9, C10 -/

/-- Keys of a table with no entry for `k` all differ from `k`. -/
theorem key_ne_of_mapGet_none {k : String} {t : Table}
    (h : mapGet k t = none) : ∀ p ∈ t, p.1 ≠ k := by
  induction t with
  | nil => intro p hp; cases hp
  | cons q t ih =>
      rw [mapGet_cons] at h
      intro p hp
      by_cases hq : q.1 = k
      · rw [if_pos hq] at h
        exact Option.noConfusion h
      · rw [if_neg hq] at h
        rcases List.mem_cons.mp hp with rfl | hp'
        · exact hq
        · exact ih h p hp'

/-- Claim C3: a tracked `runScript` call with a successful spawn and a
fresh id resolves with `success:true`, inserts a task with status
`'running'` into the Task Table under the id, and a `listScripts`
immediately afterwards shows the id exactly once, with status
`'running'`.  The well-keyedness hypothesis (every stored task's `id`
field equals its table key) holds of every reachable table, since the
only insertion stores the task under its own id. -/
theorem C3_tracked_listed (sp : String) (a : List String) (pid : Nat)
    (id wd : String) (t0 : Nat) (s : MState)
    (hfresh : mapGet id s.table = none)
    (hwk : ∀ p ∈ s.table, (p : String × Task).2.id = p.1) :
    ((runScript sp a ⟨false⟩ (.ok pid) id wd t0 s).result.success = true) ∧
    (mapGet id (runScript sp a ⟨false⟩ (.ok pid) id wd t0 s).state.table
      = some (newTask id sp a pid t0 wd)) ∧
    ((listScripts (runScript sp a ⟨false⟩ (.ok pid) id wd t0 s).state).scripts.countP
        (fun v => decide (v.id = id)) = 1) ∧
    (∀ v ∈ (listScripts
        (runScript sp a ⟨false⟩ (.ok pid) id wd t0 s).state).scripts,
        v.id = id → v.status = Status.running) := by
  have htab : (runScript sp a ⟨false⟩ (.ok pid) id wd t0 s).state.table
      = s.table ++ [(id, newTask id sp a pid t0 wd)] := by
    show mapSet id (newTask id sp a pid t0 wd) s.table = _
    exact mapSet_of_fresh hfresh _
  refine ⟨rfl, ?_, ?_, ?_⟩
  · show mapGet id (mapSet id (newTask id sp a pid t0 wd) s.table) = _
    exact mapGet_mapSet_self _ _ _
  · show (((runScript sp a ⟨false⟩ (.ok pid) id wd t0 s).state.table).map
        (fun p => viewOf p.2)).countP (fun v => decide (v.id = id)) = 1
    rw [htab, List.map_append, List.countP_append]
    have h0 : ((s.table.map (fun p => viewOf p.2)).countP
        (fun v => decide (v.id = id))) = 0 := by
      rw [List.countP_map]
      refine List.countP_eq_zero.mpr (fun p hp hd => ?_)
      have hv : (viewOf p.2).id = id := of_decide_eq_true hd
      have hid : p.2.id = p.1 := hwk p hp
      have hpid : p.2.id = id := hv
      exact key_ne_of_mapGet_none hfresh p hp (hid ▸ hpid)
    rw [h0]
    simp [viewOf, newTask]
  · intro v hv hvid
    have hv' : v ∈ ((s.table ++ [(id, newTask id sp a pid t0 wd)]).map
        (fun p => viewOf p.2)) := by
      rw [← htab]
      exact hv
    rw [List.map_append] at hv'
    rcases List.mem_append.mp hv' with hv1 | hv2
    · rcases List.mem_map.mp hv1 with ⟨p, hp, rfl⟩
      have hid : p.2.id = p.1 := hwk p hp
      have hne : p.1 ≠ id := key_ne_of_mapGet_none hfresh p hp
      have : (viewOf p.2).id = p.2.id := rfl
      rw [this, hid] at hvid
      exact absurd hvid hne
    · rcases List.mem_map.mp hv2 with ⟨p, hp, rfl⟩
      have hp1 : p = (id, newTask id sp a pid t0 wd) :=
        List.mem_singleton.mp hp
      subst hp1
      rfl

/-- Witness for C3: the tracked demo run on the empty state. -/
theorem C3_tracked_listed_witness :
    ((runScript "a.js" [] ⟨false⟩ (.ok 42) "t1" "/w" 0 {}).result.success
      = true) ∧
    (mapGet "t1"
        (runScript "a.js" [] ⟨false⟩ (.ok 42) "t1" "/w" 0 {}).state.table
      = some (newTask "t1" "a.js" [] 42 0 "/w")) ∧
    ((listScripts
        (runScript "a.js" [] ⟨false⟩ (.ok 42) "t1" "/w" 0 {}).state).scripts.countP
        (fun v => decide (v.id = "t1")) = 1) ∧
    (∀ v ∈ (listScripts
        (runScript "a.js" [] ⟨false⟩ (.ok 42) "t1" "/w" 0 {}).state).scripts,
        v.id = "t1" → v.status = Status.running) :=
  C3_tracked_listed "a.js" [] 42 "t1" "/w" 0 {} (by decide)
    (fun p hp => absurd hp (List.not_mem_nil p))

/-- Claim C7: `getStatus` always reports `success:true`,
`tasks.total` equals the Task Table size, the per-status counts sum
to the total (every task's status is exactly one of the three
buckets), and `getStatus` is a pure read — as an `applyOp` operation
it leaves the manager state unchanged. -/
theorem C7_getStatus_counts (s : MState) :
    ((getStatus s).success = true) ∧
    ((getStatus s).tasks.total = s.table.length) ∧
    ((getStatus s).tasks.running + (getStatus s).tasks.completed
       + (getStatus s).tasks.stopped = (getStatus s).tasks.total) ∧
    (applyOp Op.statusOp s = s) := by
  refine ⟨rfl, rfl, ?_, rfl⟩
  show s.table.countP (fun p => decide (p.2.status = .running))
      + s.table.countP (fun p => decide (p.2.status = .completed))
      + s.table.countP (fun p => decide (p.2.status = .stopped))
      = s.table.length
  induction s.table with
  | nil => rfl
  | cons p t ih =>
      rw [List.countP_cons, List.countP_cons, List.countP_cons,
          List.length_cons]
      cases hs : p.2.status <;> simp [hs] <;> omega

/-- Claim C8: the launch command `runScript` hands to `spawn` is
resolved from the script path's suffix: `.js` paths run under `node`
with the script as first argument followed by the args; `.bat` paths
run under `cmd` with `/c`, the script and the args; all other paths
are executed directly with the args.  (A path cannot end in both
`.js` and `.bat`, so the `else if` chain is the three-way partition
stated by the claim.) -/
theorem C8_dispatch (sp : String) (a : List String) (o : RunOptions)
    (res : Except String Nat) (id wd : String) (t0 : Nat) (s : MState) :
    (strEndsWith sp ".js" = true →
      (runScript sp a o res id wd t0 s).spawned =
        { command := "node", commandArgs := sp :: a, cwdDir := wd,
          detached := o.oneTime }) ∧
    (strEndsWith sp ".js" = false → strEndsWith sp ".bat" = true →
      (runScript sp a o res id wd t0 s).spawned =
        { command := "cmd", commandArgs := "/c" :: sp :: a, cwdDir := wd,
          detached := o.oneTime }) ∧
    (strEndsWith sp ".js" = false → strEndsWith sp ".bat" = false →
      (runScript sp a o res id wd t0 s).spawned =
        { command := sp, commandArgs := a, cwdDir := wd,
          detached := o.oneTime }) := by
  obtain ⟨b⟩ := o
  refine ⟨fun h1 => ?_, fun h1 h2 => ?_, fun h1 h2 => ?_⟩
  · cases res <;> cases b <;> simp [runScript, h1]
  · cases res <;> cases b <;> simp [runScript, h1, h2]
  · cases res <;> cases b <;> simp [runScript, h1, h2]

/-- Witness for C8: a `.js` path is launched via `node`. -/
theorem C8_dispatch_witness :
    (strEndsWith "a.js" ".js" = true) ∧
    ((runScript "a.js" ["x"] {} (.ok 1) "i" "/w" 0 {}).spawned =
      { command := "node", commandArgs := ["a.js", "x"], cwdDir := "/w",
        detached := false }) :=
  ⟨by decide, (C8_dispatch "a.js" ["x"] {} (.ok 1) "i" "/w" 0 {}).1
    (by decide)⟩

/-- Claim C9, evaluated at the failing input: a request body carrying
`oneTime:true` (the README's own curl example for this endpoint).
The handler returns 200 with the result of `runScript(script, args)`
— the options argument, and with it the body's `oneTime` flag, is
dropped — so the result has mode `'tracked'` and a task IS inserted
into the Task Table, whereas forwarding the `oneTime` option (last
conjunct) would have produced mode `'oneTime'` (and, by C6, no table
entry). -/
theorem C9_oneTime_dropped :
    ((runEndpoint { script := some "./tests/test-one-time.js",
                    args := some ["test-arg"], oneTime := some true }
        (.ok 7) "u1" "/w" 0 {}).1
      = .ok ((runScript "./tests/test-one-time.js" ["test-arg"]
               { oneTime := false } (.ok 7) "u1" "/w" 0 {}).result)) ∧
    ((runScript "./tests/test-one-time.js" ["test-arg"]
        { oneTime := false } (.ok 7) "u1" "/w" 0 {}).result.mode
      = some "tracked") ∧
    (mapHas "u1"
        (runEndpoint { script := some "./tests/test-one-time.js",
                       args := some ["test-arg"], oneTime := some true }
            (.ok 7) "u1" "/w" 0 {}).2.table = true) ∧
    ((runScript "./tests/test-one-time.js" ["test-arg"]
        { oneTime := true } (.ok 7) "u1" "/w" 0 {}).result.mode
      = some "oneTime") := by
  refine ⟨rfl, rfl, ?_, rfl⟩
  decide

/-- Claim C10: `listScripts` carries every table entry to its view,
and the view's `duration` field is `null` both when the recorded
duration is absent and when it is 0 (`scriptInfo.duration || null`:
`0` is falsy), while any nonzero recorded duration is reported
unchanged — so the `duration` field alone cannot distinguish a task
that ran 0 ms from one that has not ended. -/
theorem C10_duration_view (s : MState) (p : String × Task)
    (hp : p ∈ s.table) :
    (viewOf p.2 ∈ (listScripts s).scripts) ∧
    ((p.2.duration = none ∨ p.2.duration = some 0) →
      (viewOf p.2).duration = none) ∧
    (∀ d : Nat, p.2.duration = some d → d ≠ 0 →
      (viewOf p.2).duration = some d) := by
  refine ⟨List.mem_map_of_mem _ hp, ?_, ?_⟩
  · rintro (hd | hd) <;> simp [viewOf, hd]
  · intro d hd hdz
    simp [viewOf, hd, hdz]

/-- Witness for C10: the task of `demoZeroStop` ran for 0 ms
(`endTime = some 0` is recorded) yet `listScripts` reports its
duration as `null`. -/
theorem C10_duration_view_witness :
    (viewOf demoZeroTask ∈ (listScripts demoZeroStop).scripts) ∧
    ((viewOf demoZeroTask).duration = none) :=
  ⟨(C10_duration_view demoZeroStop ("t1", demoZeroTask) (by decide)).1,
   (C10_duration_view demoZeroStop ("t1", demoZeroTask) (by decide)).2.1
     (Or.inr (by decide))⟩

end TaskRunner
